import Mathlib

/-!
# Verification of the MindMap ingestion + retrieval pipeline

Shallow embedding of the core of the MindMap backend
(`src/backend/app`): the sentence-aware text chunker
(`utils/chunking.py`), the retrieval engine (`utils/retrieval.py`),
the ChromaDB client wrapper (`vector/client.py`), the page-summary
parser and the ingestion worker (`workers/ingestion.py`).

Python strings are modelled as `List Char` (with `String` at the
boundaries); machine integers are `Nat` (no overflow is relevant:
all counts are small and non-negative); fallible operations return
`Except`/`Option`; external collaborators (the ChromaDB collection
query, the JSON decoder, the LLM and embedding providers) are
abstract parameters of the functions that call them.
-/

deriving instance DecidableEq for Except

namespace MindMap

/-! ## String utilities shared by several components

Python string primitives used by the code (`str.strip`, `str.split`,
`s in t`, `str.find`, slicing) modelled over `List Char`. -/

/-- Python's default `str.strip` whitespace set (ASCII part). -/
def isPyWhitespace (c : Char) : Bool :=
  c = ' ' ∨ c = '\t' ∨ c = '\n' ∨ c = '\x0d' ∨ c = '\x0b' ∨ c = '\x0c'

/-- Python `str.strip()`: drop whitespace from both ends. -/
def pyStrip (cs : List Char) : List Char :=
  ((cs.dropWhile isPyWhitespace).reverse.dropWhile isPyWhitespace).reverse

/-- Python `str.strip()` on `String`. -/
def pyStripStr (s : String) : String :=
  ⟨pyStrip s.data⟩

/-- One step of Python `str.split(sep)` (non-empty `sep`): `acc` is the
current field accumulated in reverse; `skip` counts separator
characters still to be consumed after a match (so the recursion is
structural on the text and separator occurrences never overlap). -/
def pySplitGo (sep : List Char) : List Char → Nat → List Char → List (List Char)
  | acc, _, [] => [acc.reverse]
  | acc, skip, c :: cs =>
    if 0 < skip then pySplitGo sep acc (skip - 1) cs
    else if sep ≠ [] ∧ sep.isPrefixOf (c :: cs) then
      acc.reverse :: pySplitGo sep [] (sep.length - 1) cs
    else
      pySplitGo sep (c :: acc) 0 cs

/-- Python `str.split(sep)` for a non-empty separator: split at every
(non-overlapping, leftmost-first) occurrence, keeping empty fields. -/
def pySplit (sep cs : List Char) : List (List Char) :=
  pySplitGo sep [] 0 cs

/-- Python `sub in s` (substring containment), via `pySplit`. -/
def pyContains (cs sub : List Char) : Bool :=
  1 < (pySplit sub cs).length

/-- Python `s.find(sub)` restricted to the case `sub in s`: the index of
the first occurrence, which is the length of the text before it. -/
def pyFind (cs sub : List Char) : Nat :=
  ((pySplit sub cs).headD []).length

/-- Python slice `s[a:b]` (character indices, `a > b` gives `[]`). -/
def pySlice (cs : List Char) (a b : Nat) : List Char :=
  (cs.drop a).take (b - a)

/-- Python `" ".join(parts)` generalised to any separator. -/
def pyJoin (sep : List Char) : List (List Char) → List Char
  | [] => []
  | [p] => p
  | p :: ps => p ++ sep ++ pyJoin sep ps

/-! ## `vector/client.py`: collection routing (claim C10)

`VectorDBClient.get_collection_for_provider` and
`get_vector_size_for_provider` ignore their `provider` argument. -/

/-- `VectorDBClient.COLLECTION_OPENAI_SMALL` (`vector/client.py` line 15). -/
def COLLECTION_OPENAI_SMALL : String := "chunks_openai_small"

/-- `VectorDBClient.get_collection_for_provider` (`vector/client.py`
lines 223-226): returns the single collection, ignoring `provider`. -/
def get_collection_for_provider (_provider : String) : String :=
  COLLECTION_OPENAI_SMALL

/-- `VectorDBClient.get_vector_size_for_provider` (`vector/client.py`
lines 228-231): always 1536, ignoring `provider`. -/
def get_vector_size_for_provider (_provider : String) : Nat :=
  1536

/-! ## `utils/chunking.py`: the sentence-aware chunker (claim C2) -/

/-- Chunker configuration (`TextChunker.__init__`). -/
structure ChunkerCfg where
  target_chunk_size : Nat
  min_chunk_size : Nat
  max_chunk_size : Nat
  overlap_size : Nat

/-- Defaults: target 600, min 400, max 800, overlap 75. -/
def defaultChunkerCfg : ChunkerCfg :=
  ⟨600, 400, 800, 75⟩

/-- A chunk record as produced by `TextChunker.chunk_text`. -/
structure Chunk where
  text : List Char
  page_no : Nat
  chunk_index : Nat
  token_count : Nat
deriving DecidableEq, Repr

/-- `TextChunker._estimate_tokens`: `len(text) // 4`. -/
def estimateTokens (cs : List Char) : Nat :=
  cs.length / 4

/-- Sum of per-sentence token estimates (the code's
`sum(self._estimate_tokens(s) for s in current_chunk)`). -/
def sumEst (l : List (List Char)) : Nat :=
  (l.map estimateTokens).sum

/-- Inner loop of `TextChunker._get_overlap_sentences`, walking the
reversed sentence list and keeping sentences while they fit in the
overlap budget. -/
def overlapTake (overlapTokens : Nat) : List (List Char) → Nat → List (List Char)
  | [], _ => []
  | s :: rest, cur =>
    if cur + estimateTokens s ≤ overlapTokens then
      s :: overlapTake overlapTokens rest (cur + estimateTokens s)
    else
      []

/-- `TextChunker._get_overlap_sentences` (`chunking.py` lines 144-162):
the longest suffix of `sentences` whose cumulative estimate fits in
`overlapTokens`, in original order. -/
def getOverlapSentences (sentences : List (List Char)) (overlapTokens : Nat) :
    List (List Char) :=
  (overlapTake overlapTokens sentences.reverse 0).reverse

/-- Loop state of `TextChunker.chunk_text`: emitted chunks, the current
sentence buffer, its running size, and the next chunk index. -/
structure ChunkState where
  chunks : List Chunk
  cur : List (List Char)
  curSize : Nat
  idx : Nat

/-- Close the current chunk: emit it and seed the next buffer with the
overlap suffix (the repeated block at `chunking.py` lines 67-82 and
90-105). -/
def finalizeChunk (cfg : ChunkerCfg) (pageNo : Nat) (st : ChunkState) : ChunkState :=
  let ch : Chunk :=
    { text := pyJoin [' '] st.cur
      page_no := pageNo
      chunk_index := st.idx
      token_count := st.curSize }
  let ov := getOverlapSentences st.cur cfg.overlap_size
  { chunks := st.chunks ++ [ch]
    cur := ov
    curSize := sumEst ov
    idx := st.idx + 1 }

/-- One iteration of the `for sentence in sentences` loop of
`TextChunker.chunk_text` (`chunking.py` lines 62-105). -/
def chunkStep (cfg : ChunkerCfg) (pageNo : Nat) (st : ChunkState)
    (sentence : List Char) : ChunkState :=
  let ssize := estimateTokens sentence
  let st1 :=
    if cfg.max_chunk_size < st.curSize + ssize ∧ st.cur ≠ [] then
      finalizeChunk cfg pageNo st
    else st
  let st2 : ChunkState :=
    { st1 with cur := st1.cur ++ [sentence], curSize := st1.curSize + ssize }
  if cfg.target_chunk_size ≤ st2.curSize ∧ cfg.min_chunk_size ≤ st2.curSize then
    finalizeChunk cfg pageNo st2
  else st2

/-- Apply `f` to the last element of a list (`chunks[-1] = ...`). -/
def updateLast (f : Chunk → Chunk) : List Chunk → List Chunk
  | [] => []
  | [a] => [f a]
  | a :: rest => a :: updateLast f rest

/-- The flush after the loop (`chunking.py` lines 107-123): emit the
remainder, or merge it into the previous chunk when it is undersized
and a chunk already exists. -/
def chunkFlush (cfg : ChunkerCfg) (pageNo : Nat) (st : ChunkState) : List Chunk :=
  if st.cur ≠ [] then
    let ctext := pyJoin [' '] st.cur
    if cfg.min_chunk_size ≤ st.curSize ∨ st.chunks = [] then
      st.chunks ++
        [{ text := ctext
           page_no := pageNo
           chunk_index := st.idx
           token_count := st.curSize }]
    else
      updateLast
        (fun last =>
          { last with
              text := last.text ++ [' '] ++ ctext
              token_count := last.token_count + st.curSize })
        st.chunks
  else st.chunks

/-- `TextChunker.chunk_text` on an already-split sentence list. -/
def chunkSentences (cfg : ChunkerCfg) (sentences : List (List Char))
    (pageNo : Nat) : List Chunk :=
  chunkFlush cfg pageNo (sentences.foldl (chunkStep cfg pageNo) ⟨[], [], 0, 0⟩)

/-- `TextChunker._split_into_sentences` (`chunking.py` lines 127-136),
modelled by its punctuation-based fallback path
(`re.split(r'[.!?]+', text)` then strip and drop empties); the primary
NLTK tokenizer is an external library. The consecutive-delimiter runs
of the regex produce the same result as per-character splitting once
empty fields are dropped. -/
def splitIntoSentences (cs : List Char) : List (List Char) :=
  ((cs.splitOnP (fun c => c = '.' ∨ c = '!' ∨ c = '?')).map pyStrip).filter (· ≠ [])

/-- `TextChunker.chunk_text` (`chunking.py` lines 40-125): empty check,
sentence split, greedy accumulation, final flush. -/
def chunk_text (cfg : ChunkerCfg) (text : List Char) (pageNo : Nat) : List Chunk :=
  if pyStrip text = [] then []
  else chunkSentences cfg (splitIntoSentences text) pageNo

/-! ## `utils/retrieval.py` + `vector/client.py`: the retrieval stack
(claims C3, C6, C7, C8)

The ChromaDB collection is an external collaborator: modelled as an
abstract query function `CollectionQuery` taking the `n_results` limit
and the built `where` filter and returning either raw hits or an
exception. The query embedding is fixed across the (at most two)
calls inside one retrieval, so it is not a parameter of the query. -/

/-- `ScopeMode` (`retrieval.py` lines 12-16). -/
inductive ScopeMode where
  | page
  | near
  | deck
deriving DecidableEq, Repr

/-- The filter dict built by `RetrievalEngine._get_page_filter`: it
always carries `doc_id` and optionally `page_no`. -/
structure PageFilter where
  doc_id : String
  page_no : Option Nat
deriving DecidableEq, Repr

/-- `RetrievalEngine._get_page_filter` (`retrieval.py` lines 89-124):
`page` and `near` both pin the exact page (the ±2 neighborhood is not
implemented, lines 112-118); `deck` filters by document only. -/
def get_page_filter (docId : String) (pageNo : Nat) : ScopeMode → PageFilter
  | .page => ⟨docId, some pageNo⟩
  | .near => ⟨docId, some pageNo⟩
  | .deck => ⟨docId, none⟩

/-- The ChromaDB `where` filter built by `VectorDBClient.search`
(`client.py` lines 138-153): a single `$eq` for one condition, an
`$and` of `$eq`s for two. -/
inductive WhereFilter where
  | eqDocId (docId : String)
  | andDocPage (docId : String) (pageNo : Nat)
deriving DecidableEq, Repr

/-- Build the `where` filter from the engine's filter conditions
(`client.py` lines 139-153; the conditions dict always has `doc_id`,
so the no-filter path is never taken by the engine). -/
def buildWhereFilter (fc : PageFilter) : WhereFilter :=
  match fc.page_no with
  | none => .eqDocId fc.doc_id
  | some p => .andDocPage fc.doc_id p

/-- One raw entry of a ChromaDB query reply: id, distance, metadata
fields (each possibly absent from the stored payload) and the stored
document text. Distances are floating-point in ChromaDB; no claim
depends on score arithmetic, so they are modelled over `Int`. -/
structure RawHit where
  id : String
  distance : Int
  docId? : Option String
  pageNo? : Option Nat
  chunkIndex? : Option Nat
  tokenCount? : Option Nat
  document : List Char
deriving DecidableEq, Repr

/-- What it means for a stored record to satisfy a `where` filter
(equality on payload fields; an absent field matches nothing). -/
def matchesWhere : WhereFilter → RawHit → Bool
  | .eqDocId d, h => h.docId? = some d
  | .andDocPage d p, h => h.docId? = some d ∧ h.pageNo? = some p

/-- The external ChromaDB collection: `n_results` limit and `where`
filter to either raw hits or a raised exception. -/
def CollectionQuery : Type :=
  Nat → WhereFilter → Except String (List RawHit)

/-- A formatted search result (`client.py` lines 170-180). -/
structure SearchResult where
  id : String
  score : Int
  doc_id : String
  page_no : Nat
  chunk_index : Nat
  text : List Char
  token_count : Nat
deriving DecidableEq, Repr

/-- Formatting of one raw hit (`client.py` lines 169-183): reading
`metadata["doc_id"]`, `metadata["page_no"]`, `metadata["chunk_index"]`
raises `KeyError` when absent, which the per-result `except` catches
and skips; `token_count` uses `.get(..., 0)`; the score is
`1.0 - distance`. -/
def formatHit (h : RawHit) : Option SearchResult :=
  match h.docId?, h.pageNo?, h.chunkIndex? with
  | some d, some p, some ci =>
      some { id := h.id
             score := 1 - h.distance
             doc_id := d
             page_no := p
             chunk_index := ci
             text := h.document
             token_count := h.tokenCount?.getD 0 }
  | _, _, _ => none

/-- `VectorDBClient.search` (`client.py` lines 112-190): build the
`where` filter, query, format; any exception is caught and an empty
list returned (lines 188-190). -/
def clientSearch (query : CollectionQuery) (fc : PageFilter) (limit : Nat) :
    List SearchResult :=
  match query limit (buildWhereFilter fc) with
  | .error _ => []
  | .ok hits => hits.filterMap formatHit

/-- `RetrievalEngine._vector_search` (`retrieval.py` lines 126-170):
search under the filter; if no results and a `page_no` condition was
present, retry once with the document-only filter at `top_k * 2`,
then manually keep only results on the originally requested page. -/
def vector_search (query : CollectionQuery) (fc : PageFilter) (topK : Nat) :
    List SearchResult :=
  let results := clientSearch query fc topK
  if results = [] ∧ fc.page_no ≠ none then
    let fallback := clientSearch query ⟨fc.doc_id, none⟩ (topK * 2)
    if fallback ≠ [] then
      fallback.filter (fun r => some r.page_no = fc.page_no)
    else fallback
  else results

/-- `RetrievalEngine.retrieve` (`retrieval.py` lines 33-82): embed the
query (any provider exception propagates), search with `top_k * 2`
candidates, truncate to `top_k`. The embedding call is modelled by
its outcome `embedQuery`. -/
def retrieve (embedQuery : Except String Unit) (query : CollectionQuery)
    (docId : String) (pageNo : Nat) (scope : ScopeMode) (topK : Nat) :
    Except String (List SearchResult) :=
  match embedQuery with
  | .error e => .error e
  | .ok _ =>
      let pf := get_page_filter docId pageNo scope
      .ok ((vector_search query pf (topK * 2)).take topK)

/-- Claim C3's fallback, following the claim's words: on zero results
the engine is said to retry with the page condition removed
"requesting 2×top_k candidates" (where `top_k` is the retrieval's
`top_k`, the one the final list is truncated to), then discard
results on other pages and truncate to `top_k`. Used only to compare
against `retrieve`. -/
def retrieveClaimC3 (embedQuery : Except String Unit) (query : CollectionQuery)
    (docId : String) (pageNo : Nat) (scope : ScopeMode) (topK : Nat) :
    Except String (List SearchResult) :=
  match embedQuery with
  | .error e => .error e
  | .ok _ =>
      let pf := get_page_filter docId pageNo scope
      let results := clientSearch query pf (topK * 2)
      let results :=
        if results = [] ∧ pf.page_no ≠ none then
          (clientSearch query ⟨pf.doc_id, none⟩ (topK * 2)).filter
            (fun r => some r.page_no = pf.page_no)
        else results
      .ok (results.take topK)

/-! ## `RetrievalEngine.extract_citations` (claim C4)

The two marker regexes `\[page:(\d+),\s*chunk:(\d+)\]` and
`\[p(\d+):c(\d+)\]` with `re.IGNORECASE` are embedded as explicit
scanners over the character list. Both patterns are anchored on `[`;
`re.finditer` yields non-overlapping matches scanning left to right,
resuming after each match. -/

/-- ASCII lowering, as `re.IGNORECASE` treats letters. -/
def charLower (c : Char) : Char :=
  if 'A' ≤ c ∧ c ≤ 'Z' then Char.ofNat (c.toNat + 32) else c

/-- `\d`. -/
def isDigitChar (c : Char) : Bool :=
  '0' ≤ c ∧ c ≤ '9'

/-- Value of a digit run, as Python `int()`. -/
def digitsToNat (ds : List Char) : Nat :=
  ds.foldl (fun n c => n * 10 + (c.toNat - '0'.toNat)) 0

/-- `(\d+)`: one or more digits, greedy (the following pattern
characters are never digits, so greedy matching is maximal-munch). -/
def takeDigits1 (cs : List Char) : Option (Nat × List Char) :=
  let ds := cs.takeWhile isDigitChar
  if ds = [] then none else some (digitsToNat ds, cs.dropWhile isDigitChar)

/-- A case-insensitive literal. -/
def litCI (pat : List Char) (cs : List Char) : Option (List Char) :=
  match pat, cs with
  | [], rest => some rest
  | p :: ps, c :: rest => if charLower c = charLower p then litCI ps rest else none
  | _ :: _, [] => none

/-- Body of `\[page:(\d+),\s*chunk:(\d+)\]` after the `[`. -/
def matchBody1 (cs : List Char) : Option (Nat × Nat × List Char) := do
  let cs ← litCI "page:".data cs
  let (p, cs) ← takeDigits1 cs
  let cs ← litCI ",".data cs
  let cs := cs.dropWhile isPyWhitespace
  let cs ← litCI "chunk:".data cs
  let (c, cs) ← takeDigits1 cs
  let cs ← litCI "]".data cs
  pure (p, c, cs)

/-- Body of `\[p(\d+):c(\d+)\]` after the `[`. -/
def matchBody2 (cs : List Char) : Option (Nat × Nat × List Char) := do
  let cs ← litCI "p".data cs
  let (p, cs) ← takeDigits1 cs
  let cs ← litCI ":c".data cs
  let (c, cs) ← takeDigits1 cs
  let cs ← litCI "]".data cs
  pure (p, c, cs)

/-- `re.finditer` over one pattern: at each position try a match (both
patterns start with `[`); on success emit the captured pair and resume
after the match (the body only consumes, so the remainder is the
suffix of `cs` of its own length), else move one character on. -/
def scanMarkers (body : List Char → Option (Nat × Nat × List Char)) :
    List Char → List (Nat × Nat)
  | [] => []
  | c :: cs =>
    if c = '[' then
      match body cs with
      | some (p, k, rest) => (p, k) :: scanMarkers body (cs.drop (cs.length - rest.length))
      | none => scanMarkers body cs
    else scanMarkers body cs
termination_by cs => cs.length
decreasing_by
  · simp only [List.length_drop, List.length_cons]
    omega
  · simp only [List.length_cons]
    omega
  · simp only [List.length_cons]
    omega

/-- A citation record (`retrieval.py` lines 261-266). -/
structure Citation where
  page_no : Nat
  chunk_index : Nat
  chunk_id : String
  text : List Char
deriving DecidableEq, Repr

/-- The inner `for chunk in chunks` lookup (`retrieval.py` lines
259-267): first supplied chunk matching the pair exactly. -/
def findChunk (chunks : List SearchResult) (p c : Nat) : Option SearchResult :=
  chunks.find? (fun ch => ch.page_no = p ∧ ch.chunk_index = c)

/-- The citation loop over the matched pairs with the `seen_citations`
set (`retrieval.py` lines 246-267): a pair is marked seen whether or
not a matching chunk exists; a pair without a matching chunk emits
nothing. -/
def citeLoop (chunks : List SearchResult) :
    List (Nat × Nat) → List (Nat × Nat) → List Citation
  | [], _ => []
  | (p, c) :: rest, seen =>
    if (p, c) ∈ seen then citeLoop chunks rest seen
    else
      match findChunk chunks p c with
      | some ch =>
          { page_no := p
            chunk_index := c
            chunk_id := ch.id
            text := ch.text.take 200 } :: citeLoop chunks rest ((p, c) :: seen)
      | none => citeLoop chunks rest ((p, c) :: seen)

/-- `RetrievalEngine.extract_citations` (`retrieval.py` lines 220-270):
all matches of the first pattern, then all of the second, deduplicated
by pair, each resolved against the supplied chunks. -/
def extract_citations (responseText : List Char) (chunks : List SearchResult) :
    List Citation :=
  citeLoop chunks
    (scanMarkers matchBody1 responseText ++ scanMarkers matchBody2 responseText) []

/-- Keep the first occurrence of every pair (specification-side
description of the `seen_citations` dedup). -/
def dedupFirst : List (Nat × Nat) → List (Nat × Nat)
  | [] => []
  | x :: xs => x :: dedupFirst (xs.filter (· ≠ x))
termination_by l => l.length
decreasing_by
  simp only [List.length_cons]
  exact Nat.lt_succ_of_le (List.length_filter_le _ _)

/-! ## `workers/ingestion.py`: the page-summary parser (claim C5)

`_generate_summary_and_terms` (lines 393-487). The LLM stream is an
external collaborator, modelled by its collected outcome. Python's
`json.loads(json_match)` followed by `result.get("summary", "")` and
`result.get("key_terms", [])` is an external decoder, modelled by an
abstract function into the three outcomes the code distinguishes. -/

/-- Outcome of `json.loads` + `result.get(...)` on a candidate string:
a `json.JSONDecodeError` (caught at lines 469-472), any other raised
error — e.g. `AttributeError` from `.get` on a decoded non-object —
(uncaught there, lands in the outer handler at lines 485-487), or the
two extracted fields. -/
inductive JsonOutcome where
  | decodeError
  | otherError
  | fields (summary : List Char) (keyTerms : List (List Char))

/-- `===SUMMARY_START===`. -/
def sumStartMark : List Char := "===SUMMARY_START===".data
/-- `===SUMMARY_END===`. -/
def sumEndMark : List Char := "===SUMMARY_END===".data
/-- `===KEY_TERMS_START===`. -/
def ktStartMark : List Char := "===KEY_TERMS_START===".data
/-- `===KEY_TERMS_END===`. -/
def ktEndMark : List Char := "===KEY_TERMS_END===".data

/-- The text between the first occurrences of the two marks, stripped
(`full_response[start+len(mark):end].strip()`,
`ingestion.py` lines 454-456 and 476-478). -/
def betweenMarks (full startMark endMark : List Char) : List Char :=
  pyStrip (pySlice full (pyFind full startMark + startMark.length) (pyFind full endMark))

/-- The candidate string handed to `json.loads` (`ingestion.py` lines
459-463): the fenced block if a ` ```json ` or ` ``` ` fence is
present, else the whole response. -/
def jsonCandidate (full : List Char) : List Char :=
  if pyContains full "```json".data then
    pyStrip ((pySplit "```".data ((pySplit "```json".data full).getD 1 [])).headD [])
  else if pyContains full "```".data then
    pyStrip ((pySplit "```".data ((pySplit "```".data full).getD 1 [])).headD [])
  else full

/-- The parsing section of `_generate_summary_and_terms` (lines
447-483), statement by statement: the summary comes from the
`SUMMARY` delimiters when both are present, else from the JSON
fallback (a non-decode error escapes to the outer handler); then the
key terms are filled from the `KEY_TERMS` delimiters when still
empty. -/
def parseSummaryCore (jsonParse : List Char → JsonOutcome) (full : List Char) :
    Except Unit (List Char × List (List Char)) :=
  let step1 : Except Unit (List Char × List (List Char)) :=
    if pyContains full sumStartMark ∧ pyContains full sumEndMark then
      .ok (betweenMarks full sumStartMark sumEndMark, [])
    else
      match jsonParse (jsonCandidate full) with
      | .fields s ts => .ok (s, ts)
      | .decodeError => .ok (full, [])
      | .otherError => .error ()
  match step1 with
  | .error e => .error e
  | .ok (summary, keyTerms) =>
      let keyTerms :=
        if keyTerms = [] ∧ pyContains full ktStartMark ∧ pyContains full ktEndMark then
          ((pySplit "\n".data (betweenMarks full ktStartMark ktEndMark)).map
              pyStrip).filter (· ≠ [])
        else keyTerms
      .ok (summary, keyTerms)

/-- `_generate_summary_and_terms` (lines 393-487): collect the stream,
parse; the outer `except` turns any raised error — a stream failure or
an escape from the parsing section — into `("", [])`. -/
def generate_summary_and_terms (streamed : Except String (List Char))
    (jsonParse : List Char → JsonOutcome) : List Char × List (List Char) :=
  match streamed with
  | .error _ => ([], [])
  | .ok full =>
      match parseSummaryCore jsonParse full with
      | .error _ => ([], [])
      | .ok r => r

/-- Claim C5's parsing chain, following the claim's words: (1) if both
delimiter pairs are present, extract summary and key terms from them;
(2) else parse the (fence-stripped) response as JSON taking the
`summary`/`key_terms` fields; (3) else the entire raw response is the
summary with an empty key-term list. Used only to compare against
`generate_summary_and_terms`. -/
def parseClaimC5 (jsonParse : List Char → JsonOutcome) (full : List Char) :
    List Char × List (List Char) :=
  if pyContains full sumStartMark ∧ pyContains full sumEndMark ∧
      pyContains full ktStartMark ∧ pyContains full ktEndMark then
    (betweenMarks full sumStartMark sumEndMark,
      ((pySplit "\n".data (betweenMarks full ktStartMark ktEndMark)).map
          pyStrip).filter (· ≠ []))
  else
    match jsonParse (jsonCandidate full) with
    | .fields s ts => (s, ts)
    | _ => (full, [])

/-- The key-term supplement (`ingestion.py` lines 475-480) as the
amended claim describes it: when the list is still empty and the
`KEY_TERMS` pair is present, split the delimited block one term per
line. -/
def keyTermsSupplement (full : List Char) (current : List (List Char)) :
    List (List Char) :=
  if current = [] ∧ pyContains full ktStartMark ∧ pyContains full ktEndMark then
    ((pySplit "\n".data (betweenMarks full ktStartMark ktEndMark)).map
        pyStrip).filter (· ≠ [])
  else current

/-- The amended parsing chain: the two delimiter pairs are handled
independently. Summary: from the `SUMMARY` pair if present, else from
the JSON fields, else (decode error) the raw response; a non-decode
JSON error wipes both fields to empty. Key terms: whatever the summary
path yielded, supplemented from the `KEY_TERMS` pair when still
empty. -/
def parseAmendedC5 (jsonParse : List Char → JsonOutcome) (full : List Char) :
    List Char × List (List Char) :=
  if pyContains full sumStartMark ∧ pyContains full sumEndMark then
    (betweenMarks full sumStartMark sumEndMark, keyTermsSupplement full [])
  else
    match jsonParse (jsonCandidate full) with
    | .fields s ts => (s, keyTermsSupplement full ts)
    | .decodeError => (full, keyTermsSupplement full [])
    | .otherError => ([], [])

/-! ## `workers/ingestion.py`: page-failure isolation (claim C1)

The body of `process_page` (lines 75-168) runs extraction, preview,
vision rewrite, chunking, embedding, upsert and summary; all of these
touch external collaborators, so a page's processing is modelled by
its outcome: either the data the success branch persists, or the
exception message the `except` branch records. What the embedding
keeps concrete is the page-task boundary itself: the `try`/`except`
that persists a record either way (lines 79-168), the per-page gather
(lines 170-172) and the unconditional completion update (lines
174-179). -/

/-- The data the success branch of `process_page` persists. -/
structure PageSuccess where
  text : List Char
  summary : List Char
  key_terms : List (List Char)
  preview_image_path : String

/-- A persisted page record (`page_doc` at lines 138-149 /
`error_doc` at lines 155-167). -/
structure PageDoc where
  id : String
  document_id : String
  page_no : Nat
  text : List Char
  summary : List Char
  key_terms : List (List Char)
  preview_image_path : String
  ready : Bool
  error : Option String

/-- `f"{doc_id}_page_{page_no}"`. -/
def mkPageId (docId : String) (pageNo : Nat) : String :=
  docId ++ "_page_" ++ toString pageNo

/-- The record persisted for one page: the `try` branch on success,
the `except` branch (readiness false, empty text/summary/key-terms,
error message) on any exception. -/
def processPageRecord (docId : String) (pageNo : Nat) :
    Except String PageSuccess → PageDoc
  | .ok s =>
      { id := mkPageId docId pageNo
        document_id := docId
        page_no := pageNo
        text := s.text
        summary := s.summary
        key_terms := s.key_terms
        preview_image_path := s.preview_image_path
        ready := true
        error := none }
  | .error e =>
      { id := mkPageId docId pageNo
        document_id := docId
        page_no := pageNo
        text := []
        summary := []
        key_terms := []
        preview_image_path := ""
        ready := false
        error := some e }

/-- Outcome of the fan-out phase of `ingest_document`: the page
records persisted and the document-level completion flag. -/
structure IngestOutcome where
  pages : List PageDoc
  ingestion_completed : Bool

/-- The fan-out and completion of `ingest_document` (lines 170-179):
one task per page 0..page_count-1, each persisting a record whatever
its outcome; after the gather the document is marked completed. -/
def ingestFanOut (docId : String) (pageCount : Nat)
    (pageResult : Nat → Except String PageSuccess) : IngestOutcome :=
  { pages := (List.range pageCount).map
      (fun p => processPageRecord docId p (pageResult p))
    ingestion_completed := true }

/-! ## Concurrency bound of the page fan-out (claim C9)

The cooperative scheduler interleaves the page tasks; each task's
observable phases w.r.t. the semaphore are: not yet acquired, holding
a permit (the whole page body runs here, `async with semaphore` at
line 76), and finished (the permit is released on exit, success or
failure). `asyncio.Semaphore(n)` admits an acquire only while fewer
than `n` holders exist. The step relation below is exactly that
protocol; the claim is an invariant of every reachable interleaving. -/

/-- Phase of one page task relative to the semaphore. -/
inductive TaskPhase where
  | pending
  | holding
  | done
deriving DecidableEq, Repr

/-- Number of tasks currently holding a permit. -/
def holdersCount (ts : List TaskPhase) : Nat :=
  ts.countP (· = TaskPhase.holding)

/-- `asyncio.Semaphore(max(1, config.ingestion_concurrency))`
(`ingestion.py` line 73); the configured default is 4
(`config.py` line 97). -/
def semLimit (ingestionConcurrency : Nat) : Nat :=
  max 1 ingestionConcurrency

/-- One scheduler step: a pending task acquires a permit (only when a
permit is free), or a holding task finishes and releases its permit. -/
inductive IngestStep (limit : Nat) : List TaskPhase → List TaskPhase → Prop
  | acquire (ts : List TaskPhase) (i : Nat)
      (hp : ts.get? i = some .pending)
      (hfree : holdersCount ts < limit) :
      IngestStep limit ts (ts.set i .holding)
  | release (ts : List TaskPhase) (i : Nat)
      (hh : ts.get? i = some .holding) :
      IngestStep limit ts (ts.set i .done)

/-- States reachable from `page_count` freshly launched tasks. -/
inductive IngestReachable (limit n : Nat) : List TaskPhase → Prop
  | init : IngestReachable limit n (List.replicate n .pending)
  | step {s t : List TaskPhase} :
      IngestReachable limit n s → IngestStep limit s t → IngestReachable limit n t

/-! ## Auxiliary predicates and concrete instances used by the theorems -/

/-- Invariant of the chunking loop: every emitted chunk is bounded by
`B`, the running size is bounded by `B`, and the running size is the
sum of the buffered sentences' estimates. -/
def ChunkInv (B : Nat) (st : ChunkState) : Prop :=
  (∀ ch ∈ st.chunks, ch.token_count ≤ B) ∧ st.curSize ≤ B ∧ st.curSize = sumEst st.cur

/-- Chunker configuration for the C2 counterexample: target 6, min 4,
max 8, overlap 2 (the claim quantifies over every configuration). -/
def chunkCexCfg : ChunkerCfg := ⟨6, 4, 8, 2⟩

/-- Input for the C2 counterexample: three sentences of 20, 8 and 28
characters (token estimates 5, 2 and 7, all bounded by
`max_chunk_size = 8`). The second sentence fits the overlap budget,
so the third chunk is seeded with it and reaches estimate 9 > 8. -/
def chunkCexText : List Char :=
  (String.mk (List.replicate 20 'a') ++ ". " ++ String.mk (List.replicate 8 'b') ++
    ". " ++ String.mk (List.replicate 28 'c') ++ ".").data

/-- Input for the C2 witness. -/
def chunkWitnessText : List Char :=
  "Hello there. This sentence is a bit longer than the other one.".data

/-- Instrumented collection for the C3 counterexample: page-filtered
queries return nothing; document-only queries return one record on
the requested page whose id records the limit the store was asked
for. -/
def cexQueryC3 : CollectionQuery := fun limit w =>
  match w with
  | .andDocPage _ _ => .ok []
  | .eqDocId d =>
      .ok [{ id := toString limit
             distance := 0
             docId? := some d
             pageNo? := some 3
             chunkIndex? := some 0
             tokenCount? := some 1
             document := [] }]

/-- A collection holding, for every filter, one matching record
(fields derived from the filter, page 3 for document-only queries):
honest w.r.t. the `where` filter by construction; used by
witnesses. -/
def oneHitQuery : CollectionQuery := fun _ w =>
  match w with
  | .andDocPage d p =>
      .ok [{ id := "doc1_3_0"
             distance := 0
             docId? := some d
             pageNo? := some p
             chunkIndex? := some 0
             tokenCount? := some 7
             document := "hello".data }]
  | .eqDocId d =>
      .ok [{ id := "doc1_3_0"
             distance := 0
             docId? := some d
             pageNo? := some 3
             chunkIndex? := some 0
             tokenCount? := some 7
             document := "hello".data }]

/-- The empty collection. -/
def emptyQuery : CollectionQuery := fun _ _ => .ok []

/-- Response for the C5 counterexample: the `SUMMARY` pair is present
but the `KEY_TERMS` pair is absent, so the claim's chain (which
requires both pairs for direct extraction) and the code diverge. The
response is not valid JSON, so `json.loads` on it raises
`json.JSONDecodeError`. -/
def summaryCexResponse : List Char :=
  "===SUMMARY_START===Short explanation.===SUMMARY_END===".data

/-- `json.loads` + field access for the C5 counterexample: the decoder
rejects every candidate, faithful to `json.loads` on
`summaryCexResponse` (and on any slice of it), which is not JSON. -/
def cexJsonParse : List Char → JsonOutcome := fun _ => .decodeError

/-- Page outcomes for the C1 witness: page 0 fails, later pages
succeed. -/
def c1WitnessOutcomes : Nat → Except String PageSuccess := fun p =>
  if p = 0 then .error "boom"
  else .ok ⟨"text".data, "summary".data, ["term".data], "p.png"⟩

/-! ## Theorems -/

/-- C10: for every embedding provider string, including unknown ones,
`get_collection_for_provider` returns the constant collection name
`"chunks_openai_small"` and `get_vector_size_for_provider` returns
the constant 1536 — the provider argument is ignored. -/
theorem collection_routing_is_constant :
    ∀ provider : String,
      get_collection_for_provider provider = "chunks_openai_small" ∧
      get_vector_size_for_provider provider = 1536 :=
  fun _ => ⟨rfl, rfl⟩

/-- C6: the retrieval filter built for the `near` scope is identical
to the filter built for the `page` scope, so `near` retrieval behaves
identically to `page` retrieval for every document, page, store and
`top_k`. -/
theorem near_scope_equals_page_scope :
    ∀ (docId : String) (pageNo : Nat),
      get_page_filter docId pageNo .near = get_page_filter docId pageNo .page ∧
      ∀ (embedQuery : Except String Unit) (query : CollectionQuery) (topK : Nat),
        retrieve embedQuery query docId pageNo .near topK =
          retrieve embedQuery query docId pageNo .page topK :=
  fun _ _ => ⟨rfl, fun _ _ _ => rfl⟩

/-- C8 (counterexample): a vector-store failure during the search is
not distinguishable from an empty result: a collection whose every
query raises produces the same successful empty retrieval as an
honest empty collection. -/
theorem empty_vs_store_failure_counterexample :
    retrieve (.ok ()) (fun _ _ => .error "connection refused") "doc1" 0 .page 6 =
      Except.ok [] ∧
    retrieve (.ok ()) emptyQuery "doc1" 0 .page 6 = Except.ok [] := by
  constructor <;> rfl

/-- C8 (amended): an empty final result list is a valid, non-error
outcome; an embedding-provider failure propagates as an error and is
distinguishable from it, but a vector-store failure is caught inside
`VectorDBClient.search` and surfaces as the same successful empty
list. -/
theorem empty_result_vs_failures :
    ∀ (query : CollectionQuery) (docId : String) (pageNo : Nat)
      (scope : ScopeMode) (topK : Nat) (e msg : String),
      retrieve (.error e) query docId pageNo scope topK = .error e ∧
      retrieve (.ok ()) (fun _ _ => .error msg) docId pageNo scope topK = .ok [] := by
  intro query docId pageNo scope topK e msg
  refine ⟨rfl, ?_⟩
  cases scope <;>
    simp [retrieve, vector_search, clientSearch, get_page_filter]

/-! ### Chunker lemmas (C2) -/

lemma sumEst_append_single (l : List (List Char)) (s : List Char) :
    sumEst (l ++ [s]) = sumEst l + estimateTokens s := by
  simp [sumEst]

lemma sumEst_reverse (l : List (List Char)) : sumEst l.reverse = sumEst l := by
  simp [sumEst, List.sum_reverse]

lemma overlapTake_le (ovl : Nat) :
    ∀ (l : List (List Char)) (cur : Nat), cur ≤ ovl →
      cur + sumEst (overlapTake ovl l cur) ≤ ovl := by
  intro l
  induction l with
  | nil => intro cur h; simpa [overlapTake, sumEst] using h
  | cons s rest ih =>
    intro cur h
    unfold overlapTake
    split
    · rename_i hfit
      have := ih (cur + estimateTokens s) hfit
      simp only [sumEst, List.map_cons, List.sum_cons] at this ⊢
      omega
    · simpa [sumEst] using h

lemma sumEst_overlap_le (l : List (List Char)) (ovl : Nat) :
    sumEst (getOverlapSentences l ovl) ≤ ovl := by
  have h := overlapTake_le ovl l.reverse 0 (Nat.zero_le _)
  simpa [getOverlapSentences, sumEst_reverse] using h

lemma finalizeChunk_inv {cfg : ChunkerCfg} {pageNo B : Nat} {st : ChunkState}
    (hovl : cfg.overlap_size ≤ B) (h : ChunkInv B st) :
    ChunkInv B (finalizeChunk cfg pageNo st) := by
  obtain ⟨hc, hs, _⟩ := h
  refine ⟨?_, le_trans (sumEst_overlap_le _ _) hovl, rfl⟩
  intro ch hch
  simp only [finalizeChunk, List.mem_append, List.mem_singleton] at hch
  rcases hch with hch | rfl
  · exact hc ch hch
  · exact hs

lemma chunkStep_inv {cfg : ChunkerCfg} {pageNo S B : Nat} {st : ChunkState}
    {sentence : List Char}
    (hmax : cfg.max_chunk_size ≤ B) (hovlS : cfg.overlap_size + S ≤ B)
    (hs : estimateTokens sentence ≤ S) (h : ChunkInv B st) :
    ChunkInv B (chunkStep cfg pageNo st sentence) := by
  have hovl : cfg.overlap_size ≤ B := le_trans (Nat.le_add_right _ _) hovlS
  have happ : ∀ st1 : ChunkState, ChunkInv B st1 →
      st1.curSize + estimateTokens sentence ≤ B →
      ChunkInv B
        { st1 with
            cur := st1.cur ++ [sentence]
            curSize := st1.curSize + estimateTokens sentence } := by
    intro st1 h1 hb
    exact ⟨h1.1, hb, by simp only [sumEst_append_single, h1.2.2]⟩
  unfold chunkStep
  dsimp only
  split
  · have h1 : ChunkInv B (finalizeChunk cfg pageNo st) := finalizeChunk_inv hovl h
    have hov := sumEst_overlap_le st.cur cfg.overlap_size
    have hcs : (finalizeChunk cfg pageNo st).curSize =
        sumEst (getOverlapSentences st.cur cfg.overlap_size) := rfl
    have h2 := happ _ h1 (by omega)
    split
    · exact finalizeChunk_inv hovl h2
    · exact h2
  · rename_i hnot
    have hbound : st.curSize + estimateTokens sentence ≤ B := by
      by_cases hcur : st.cur = []
      · have h0 : st.curSize = 0 := by rw [h.2.2, hcur]; rfl
        omega
      · have hle : ¬ cfg.max_chunk_size < st.curSize + estimateTokens sentence :=
          fun hlt => hnot ⟨hlt, hcur⟩
        omega
    have h2 := happ st h hbound
    split
    · exact finalizeChunk_inv hovl h2
    · exact h2

lemma foldl_chunkStep_inv {cfg : ChunkerCfg} {pageNo S B : Nat}
    (hmax : cfg.max_chunk_size ≤ B) (hovlS : cfg.overlap_size + S ≤ B) :
    ∀ (sentences : List (List Char)) (st : ChunkState),
      ChunkInv B st → (∀ s ∈ sentences, estimateTokens s ≤ S) →
      ChunkInv B (sentences.foldl (chunkStep cfg pageNo) st) := by
  intro sentences
  induction sentences with
  | nil => intro st h _; exact h
  | cons s rest ih =>
    intro st h hS
    simp only [List.foldl_cons]
    exact ih _ (chunkStep_inv hmax hovlS (hS s (by simp)) h)
      (fun t ht => hS t (by simp [ht]))

lemma updateLast_bound {P Q : Chunk → Prop} {f : Chunk → Chunk} :
    ∀ {l : List Chunk}, (∀ x ∈ l, P x) → (∀ x, P x → Q x) → (∀ x, P x → Q (f x)) →
      ∀ ch ∈ updateLast f l, Q ch := by
  intro l
  induction l with
  | nil => intro _ _ _ ch hch; simp [updateLast] at hch
  | cons a rest ih =>
    intro hl hQ hfQ ch hch
    cases rest with
    | nil =>
      simp only [updateLast, List.mem_singleton] at hch
      subst hch
      exact hfQ a (hl a (by simp))
    | cons b rest' =>
      simp only [updateLast, List.mem_cons] at hch
      rcases hch with rfl | hch
      · exact hQ ch (hl ch (by simp))
      · exact ih (fun x hx => hl x (List.mem_cons_of_mem _ hx)) hQ hfQ ch hch

lemma chunkFlush_bound {cfg : ChunkerCfg} {pageNo B : Nat} {st : ChunkState}
    (h : ChunkInv B st) :
    ∀ ch ∈ chunkFlush cfg pageNo st, ch.token_count ≤ B + cfg.min_chunk_size := by
  obtain ⟨hc, hs, _⟩ := h
  unfold chunkFlush
  dsimp only
  split
  · split
    · intro ch hch
      simp only [List.mem_append, List.mem_singleton] at hch
      rcases hch with hch | rfl
      · exact le_trans (hc ch hch) (Nat.le_add_right _ _)
      · simp only
        omega
    · rename_i hnot
      have hlt : st.curSize ≤ cfg.min_chunk_size := by
        rcases Classical.em (cfg.min_chunk_size ≤ st.curSize) with hle | hgt
        · exact absurd (Or.inl hle) hnot
        · omega
      refine updateLast_bound (P := fun x => x.token_count ≤ B) hc ?_ ?_
      · intro x hx; exact le_trans hx (Nat.le_add_right _ _)
      · intro x hx
        simp only
        omega
  · intro ch hch
    exact le_trans (hc ch hch) (Nat.le_add_right _ _)

/-- C2 (counterexample): with configuration (target 6, min 4, max 8,
overlap 2), an input whose sentences all have estimates at most
`max_chunk_size` still produces a chunk with `token_count` 9 > 8: the
overlap seed carried from the previous chunk plus one sentence
overshoots the maximum, refuting the claim that only a single
oversized sentence can exceed it. -/
theorem chunk_max_size_counterexample :
    (∀ s ∈ splitIntoSentences chunkCexText,
        estimateTokens s ≤ chunkCexCfg.max_chunk_size) ∧
    ∃ ch ∈ chunk_text chunkCexCfg chunkCexText 0,
      chunkCexCfg.max_chunk_size < ch.token_count := by
  decide

/-- C2 (amended): every chunk's `token_count` is bounded by
`max(max_chunk_size, overlap_size + S) + min_chunk_size` where `S`
bounds every single sentence's estimate: a chunk can exceed
`max_chunk_size` only when a single sentence alone exceeds it, when
the overlap seed plus one sentence exceeds it, or when the undersized
final remainder (below `min_chunk_size`) is merged into the last
chunk. -/
theorem chunk_token_count_bound (cfg : ChunkerCfg) (text : List Char)
    (pageNo S : Nat)
    (hS : ∀ s ∈ splitIntoSentences text, estimateTokens s ≤ S) :
    ∀ ch ∈ chunk_text cfg text pageNo,
      ch.token_count ≤
        max cfg.max_chunk_size (cfg.overlap_size + S) + cfg.min_chunk_size := by
  intro ch hch
  unfold chunk_text at hch
  split at hch
  · simp at hch
  · exact chunkFlush_bound
      (foldl_chunkStep_inv (le_max_left _ _) (le_max_right _ _) _ _
        ⟨by simp, Nat.zero_le _, rfl⟩ hS) ch hch

/-- C2 (witness): the bound evaluated on a concrete two-sentence text
under the default configuration. -/
theorem chunk_token_count_bound_witness :
    (∀ s ∈ splitIntoSentences chunkWitnessText, estimateTokens s ≤ 800) ∧
    ∀ ch ∈ chunk_text defaultChunkerCfg chunkWitnessText 0,
      ch.token_count ≤
        max defaultChunkerCfg.max_chunk_size (defaultChunkerCfg.overlap_size + 800) +
          defaultChunkerCfg.min_chunk_size :=
  ⟨by decide, chunk_token_count_bound defaultChunkerCfg chunkWitnessText 0 800 (by decide)⟩

/-! ### Retrieval fallback (C3, C7) -/

/-- C3 (counterexample): the fallback retry does not request `2×top_k`
candidates: with `top_k = 1` and a collection whose document-only
reply records the limit it was asked for, the engine's fallback asks
for 4 candidates (`2×` the already-doubled candidate count), while
the claim's words predict 2. -/
theorem fallback_limit_counterexample :
    retrieve (.ok ()) cexQueryC3 "doc1" 3 .page 1 =
      .ok [{ id := "4", score := 1, doc_id := "doc1", page_no := 3,
             chunk_index := 0, text := [], token_count := 1 }] ∧
    retrieveClaimC3 (.ok ()) cexQueryC3 "doc1" 3 .page 1 =
      .ok [{ id := "2", score := 1, doc_id := "doc1", page_no := 3,
             chunk_index := 0, text := [], token_count := 1 }] ∧
    retrieve (.ok ()) cexQueryC3 "doc1" 3 .page 1 ≠
      retrieveClaimC3 (.ok ()) cexQueryC3 "doc1" 3 .page 1 := by
  exact ⟨by decide, by decide, by decide⟩

/-- C3 (amended): when the filter carries a page-number condition and
the initial search (over `2×top_k` candidates) returns zero results,
the engine retries exactly once with the page condition removed
(document-id filter only) requesting `4×top_k` candidates (twice the
already-doubled candidate count), manually discards every result
whose stored page number differs from the originally requested page,
and truncates to `top_k` after all fallback logic. -/
theorem fallback_widen_search (query : CollectionQuery) (docId : String)
    (pageNo topK q : Nat) (scope : ScopeMode)
    (hq : (get_page_filter docId pageNo scope).page_no = some q)
    (h0 : clientSearch query (get_page_filter docId pageNo scope) (topK * 2) = []) :
    retrieve (.ok ()) query docId pageNo scope topK =
      .ok (((clientSearch query ⟨docId, none⟩ (topK * 2 * 2)).filter
            (fun r => decide (r.page_no = q))).take topK) := by
  have hdoc : (get_page_filter docId pageNo scope).doc_id = docId := by
    cases scope <;> rfl
  simp only [retrieve, vector_search, h0, hq, hdoc, ne_eq, reduceCtorEq,
    not_false_iff, and_true, if_true, Except.ok.injEq]
  by_cases hfb : clientSearch query ⟨docId, none⟩ (topK * 2 * 2) = []
  · simp [hfb]
  · simp only [hfb, not_false_iff, if_true]
    congr 1
    apply List.filter_congr
    intro r _
    simp

/-- C3 (witness): the fallback equation evaluated at a page-scoped
retrieval over the empty collection. -/
theorem fallback_widen_search_witness :
    retrieve (.ok ()) emptyQuery "d" 5 .page 2 =
      .ok (((clientSearch emptyQuery ⟨"d", none⟩ (2 * 2 * 2)).filter
            (fun r => decide (r.page_no = 5))).take 2) :=
  fallback_widen_search emptyQuery "d" 5 2 5 .page rfl rfl

/-- Every result of a page-filtered `VectorDBClient.search` over an
honest collection lies on that page. -/
lemma clientSearch_page_mem {query : CollectionQuery} {d : String} {p lim : Nat}
    (hHonest : ∀ (lim : Nat) (w : WhereFilter) (hits : List RawHit),
      query lim w = .ok hits → ∀ hRaw ∈ hits, matchesWhere w hRaw = true) :
    ∀ r ∈ clientSearch query ⟨d, some p⟩ lim, r.page_no = p := by
  intro r hr
  unfold clientSearch buildWhereFilter at hr
  dsimp only at hr
  cases hq : query lim (.andDocPage d p) with
  | error e => rw [hq] at hr; simp at hr
  | ok hits =>
    rw [hq] at hr
    dsimp only at hr
    obtain ⟨hRaw, hmem, hfmt⟩ := List.mem_filterMap.mp hr
    have hm := hHonest _ _ _ hq hRaw hmem
    simp only [matchesWhere, decide_eq_true_eq] at hm
    cases hci : hRaw.chunkIndex? with
    | none => rw [formatHit, hm.1, hm.2, hci] at hfmt; cases hfmt
    | some ci =>
      rw [formatHit, hm.1, hm.2, hci] at hfmt
      cases hfmt
      rfl

/-- C7: under page scope, over a collection honest w.r.t. its `where`
filter, every returned chunk lies on the requested page — also when
the fallback-widen step is taken, thanks to the manual post-filter. -/
theorem page_scope_post_filter (query : CollectionQuery)
    (embedQuery : Except String Unit) (docId : String) (pageNo topK : Nat)
    (rs : List SearchResult)
    (hHonest : ∀ (lim : Nat) (w : WhereFilter) (hits : List RawHit),
      query lim w = .ok hits → ∀ hRaw ∈ hits, matchesWhere w hRaw = true)
    (hres : retrieve embedQuery query docId pageNo .page topK = .ok rs) :
    rs.all (fun r => r.page_no == pageNo) = true := by
  cases embedQuery with
  | error e => exact absurd hres (by simp [retrieve])
  | ok u =>
    have hrs : rs =
        (vector_search query ⟨docId, some pageNo⟩ (topK * 2)).take topK := by
      simpa [retrieve, get_page_filter] using hres.symm
    rw [List.all_eq_true]
    intro r hrmem
    have hr : r ∈ vector_search query ⟨docId, some pageNo⟩ (topK * 2) :=
      List.mem_of_mem_take (hrs ▸ hrmem)
    have hpage : r.page_no = pageNo := by
      by_cases h0 : clientSearch query ⟨docId, some pageNo⟩ (topK * 2) = []
      · by_cases hfb : clientSearch query ⟨docId, none⟩ (topK * 2 * 2) = []
        · simp [vector_search, h0, hfb] at hr
        · simp only [vector_search, h0, hfb, ne_eq, reduceCtorEq, not_false_iff,
            and_true, if_true] at hr
          have := (List.mem_filter.mp hr).2
          simpa using this
      · simp only [vector_search, h0, ne_eq, false_and, if_neg, ite_false] at hr
        exact clientSearch_page_mem hHonest r hr
    simpa using hpage

/-- C7 (witness): the invariant evaluated on the honest one-record
collection: a page-3 retrieval returns the record and it lies on
page 3. -/
theorem page_scope_post_filter_witness :
    ([{ id := "doc1_3_0", score := 1 - 0, doc_id := "doc1", page_no := 3,
        chunk_index := 0, text := "hello".data, token_count := 7 }] :
      List SearchResult).all (fun r => r.page_no == 3) = true :=
  page_scope_post_filter oneHitQuery (.ok ()) "doc1" 3 1 _
    (by
      intro lim w hits hq hRaw hmem
      cases w with
      | eqDocId d =>
        simp only [oneHitQuery] at hq
        cases hq
        simp only [List.mem_singleton] at hmem
        subst hmem
        simp [matchesWhere]
      | andDocPage d p =>
        simp only [oneHitQuery] at hq
        cases hq
        simp only [List.mem_singleton] at hmem
        subst hmem
        simp [matchesWhere])
    rfl

/-! ### Ingestion fan-out (C1) and semaphore bound (C9) -/

/-- C1: if a page's processing fails with any exception, a page record
is still persisted for it with readiness false, empty text, summary
and key terms, and the error message recorded; all sibling pages get
records too (one per page 0..page_count-1), and the document is still
marked ingestion-completed after all page tasks settle. -/
theorem page_failure_isolation (docId : String) (pageCount : Nat)
    (pageResult : Nat → Except String PageSuccess) (p : Nat) (e : String)
    (hp : p < pageCount) (herr : pageResult p = .error e) :
    (ingestFanOut docId pageCount pageResult).ingestion_completed = true ∧
    (ingestFanOut docId pageCount pageResult).pages.length = pageCount ∧
    (∃ rec ∈ (ingestFanOut docId pageCount pageResult).pages,
      rec.id = mkPageId docId p ∧ rec.page_no = p ∧ rec.ready = false ∧
      rec.text = [] ∧ rec.summary = [] ∧ rec.key_terms = [] ∧
      rec.error = some e) ∧
    ∀ q, q < pageCount →
      ∃ rec ∈ (ingestFanOut docId pageCount pageResult).pages, rec.page_no = q := by
  refine ⟨rfl, by simp [ingestFanOut], ?_, ?_⟩
  · refine ⟨processPageRecord docId p (pageResult p), ?_, ?_⟩
    · simp only [ingestFanOut, List.mem_map]
      exact ⟨p, List.mem_range.mpr hp, rfl⟩
    · rw [herr]
      exact ⟨rfl, rfl, rfl, rfl, rfl, rfl, rfl⟩
  · intro q hq
    refine ⟨processPageRecord docId q (pageResult q), ?_, ?_⟩
    · simp only [ingestFanOut, List.mem_map]
      exact ⟨q, List.mem_range.mpr hq, rfl⟩
    · cases hres : pageResult q <;> simp [processPageRecord, hres]

/-- C1 (witness): a two-page document whose page 0 fails. -/
theorem page_failure_isolation_witness :
    c1WitnessOutcomes 0 = .error "boom" ∧
    ((ingestFanOut "doc1" 2 c1WitnessOutcomes).ingestion_completed = true ∧
     (ingestFanOut "doc1" 2 c1WitnessOutcomes).pages.length = 2 ∧
     (∃ rec ∈ (ingestFanOut "doc1" 2 c1WitnessOutcomes).pages,
       rec.id = mkPageId "doc1" 0 ∧ rec.page_no = 0 ∧ rec.ready = false ∧
       rec.text = [] ∧ rec.summary = [] ∧ rec.key_terms = [] ∧
       rec.error = some "boom") ∧
     ∀ q, q < 2 →
       ∃ rec ∈ (ingestFanOut "doc1" 2 c1WitnessOutcomes).pages, rec.page_no = q) :=
  ⟨rfl, page_failure_isolation "doc1" 2 c1WitnessOutcomes 0 "boom" (by decide) rfl⟩

lemma countP_set (p : TaskPhase → Bool) :
    ∀ (l : List TaskPhase) (i : Nat) (a b : TaskPhase), l.get? i = some a →
      (l.set i b).countP p + (if p a then 1 else 0) =
        l.countP p + (if p b then 1 else 0) := by
  intro l
  induction l with
  | nil => intro i a b h; cases h
  | cons c rest ih =>
    intro i a b h
    cases i with
    | zero =>
      cases h
      simp only [List.set_cons_zero, List.countP_cons]
      omega
    | succ j =>
      have := ih j a b h
      simp only [List.set_cons_succ, List.countP_cons]
      omega

lemma holdersCount_replicate_pending (n : Nat) :
    holdersCount (List.replicate n .pending) = 0 := by
  induction n with
  | zero => rfl
  | succ m ih =>
    simp only [holdersCount, List.replicate_succ, List.countP_cons] at ih ⊢
    simp [ih]

/-- C9: in every reachable interleaving of the page tasks, at most
`max(1, ingestion_concurrency)` tasks hold a semaphore permit at the
same time; each task acquires its permit before the page work and
releases it on completion, success or failure (the step relation
embeds the `async with semaphore` protocol). -/
theorem semaphore_holders_bounded {ingestionConcurrency n : Nat}
    {s : List TaskPhase}
    (hreach : IngestReachable (semLimit ingestionConcurrency) n s) :
    holdersCount s ≤ semLimit ingestionConcurrency := by
  induction hreach with
  | init => simp [holdersCount_replicate_pending]
  | step hr hstep ih =>
    rename_i s' t'
    cases hstep with
    | acquire i hp hfree =>
      have h := countP_set (· = TaskPhase.holding) s' i .pending .holding hp
      simp only [holdersCount] at *
      simp at h
      omega
    | release i hh =>
      have h := countP_set (· = TaskPhase.holding) s' i .holding .done hh
      simp only [holdersCount] at *
      simp at h
      omega

/-- C9 (witness): the bound evaluated for five tasks under the default
concurrency limit 4, after one acquire step. -/
theorem semaphore_holders_bounded_witness :
    holdersCount ((List.replicate 5 TaskPhase.pending).set 0 .holding) ≤
      semLimit 4 :=
  semaphore_holders_bounded
    (.step .init (.acquire (List.replicate 5 .pending) 0 (by decide) (by decide)))

/-! ### Citation extraction (C4) -/

lemma dedupFirst_subset : ∀ (l : List (Nat × Nat)), dedupFirst l ⊆ l
  | [] => by simp [dedupFirst]
  | x :: xs => by
    intro a ha
    simp only [dedupFirst, List.mem_cons] at ha
    rcases ha with rfl | ha
    · exact List.mem_cons_self _ _
    · exact List.mem_cons_of_mem _
        (List.mem_of_mem_filter (dedupFirst_subset (xs.filter (· ≠ x)) ha))
termination_by l => l.length
decreasing_by
  simp only [List.length_cons]
  exact Nat.lt_succ_of_le (List.length_filter_le _ _)

lemma dedupFirst_nodup : ∀ (l : List (Nat × Nat)), (dedupFirst l).Nodup
  | [] => by simp [dedupFirst]
  | x :: xs => by
    simp only [dedupFirst]
    refine List.nodup_cons.mpr ⟨?_, dedupFirst_nodup (xs.filter (· ≠ x))⟩
    intro hmem
    have hx := List.mem_filter.mp (dedupFirst_subset _ hmem)
    simp at hx
termination_by l => l.length
decreasing_by
  simp only [List.length_cons]
  exact Nat.lt_succ_of_le (List.length_filter_le _ _)

lemma citeLoop_map_pairs (chunks : List SearchResult) :
    ∀ (ms seen : List (Nat × Nat)),
      (citeLoop chunks ms seen).map (fun cit => (cit.page_no, cit.chunk_index)) =
        (dedupFirst (ms.filter (fun x => x ∉ seen))).filter
          (fun pc => (findChunk chunks pc.1 pc.2).isSome) := by
  intro ms
  induction ms with
  | nil => intro seen; simp [citeLoop, dedupFirst]
  | cons x rest ih =>
    intro seen
    obtain ⟨p, c⟩ := x
    by_cases hseen : (p, c) ∈ seen
    · have hfilter : ((p, c) :: rest).filter (fun x => x ∉ seen) =
          rest.filter (fun x => x ∉ seen) := by
        simp [List.filter_cons, hseen]
      simp only [citeLoop, if_pos hseen, hfilter]
      exact ih seen
    · have hfilter : ((p, c) :: rest).filter (fun x => x ∉ seen) =
          (p, c) :: rest.filter (fun x => x ∉ seen) := by
        simp [List.filter_cons, hseen]
      have hff : (rest.filter (fun x => x ∉ seen)).filter (fun x => x ≠ (p, c)) =
          rest.filter (fun x => x ∉ (p, c) :: seen) := by
        rw [List.filter_filter]
        apply List.filter_congr
        intro a _
        by_cases h1 : a = (p, c) <;> by_cases h2 : a ∈ seen <;> simp [h1, h2]
      rw [hfilter]
      simp only [dedupFirst, hff]
      cases hfind : findChunk chunks p c with
      | some ch =>
        simp only [citeLoop, if_neg hseen, hfind, List.map_cons, ih ((p, c) :: seen)]
        rw [List.filter_cons]
        simp [hfind]
      | none =>
        simp only [citeLoop, if_neg hseen, hfind, ih ((p, c) :: seen)]
        rw [List.filter_cons]
        simp [hfind]

lemma citeLoop_mem (chunks : List SearchResult) :
    ∀ (ms seen : List (Nat × Nat)) (cit : Citation),
      cit ∈ citeLoop chunks ms seen →
      ∃ ch, findChunk chunks cit.page_no cit.chunk_index = some ch ∧
        ch.page_no = cit.page_no ∧ ch.chunk_index = cit.chunk_index ∧
        cit.chunk_id = ch.id ∧ cit.text = ch.text.take 200 := by
  intro ms
  induction ms with
  | nil => intro seen cit h; cases h
  | cons x rest ih =>
    intro seen cit h
    obtain ⟨p, c⟩ := x
    by_cases hseen : (p, c) ∈ seen
    · rw [citeLoop, if_pos hseen] at h
      exact ih seen cit h
    · rw [citeLoop, if_neg hseen] at h
      cases hfind : findChunk chunks p c with
      | some ch =>
        rw [hfind] at h
        rcases List.mem_cons.mp h with rfl | h
        · refine ⟨ch, hfind, ?_, ?_, rfl, rfl⟩
          · have := List.find?_some hfind
            simp only [decide_eq_true_eq, Bool.and_eq_true] at this
            exact this.1
          · have := List.find?_some hfind
            simp only [decide_eq_true_eq, Bool.and_eq_true] at this
            exact this.2
        · exact ih _ cit h
      | none =>
        rw [hfind] at h
        exact ih _ cit h

/-- C4: `extract_citations` emits at most one citation per
(page, chunk) pair — its pair list is exactly the first-seen
deduplication of the scanned markers (all `[page:P, chunk:C]`
matches, then all `[pP:cC]` matches, case-insensitive) restricted to
pairs for which a supplied chunk matches exactly — and every emitted
citation carries the matching chunk's id and the first 200 characters
of its text; a marker whose pair has no matching chunk yields no
citation (and the extraction is a total function, so no error). -/
theorem extract_citations_spec (t : List Char) (chunks : List SearchResult) :
    ((extract_citations t chunks).map (fun cit => (cit.page_no, cit.chunk_index)) =
      (dedupFirst (scanMarkers matchBody1 t ++ scanMarkers matchBody2 t)).filter
        (fun pc => (findChunk chunks pc.1 pc.2).isSome)) ∧
    ((extract_citations t chunks).map
      (fun cit => (cit.page_no, cit.chunk_index))).Nodup ∧
    ∀ cit ∈ extract_citations t chunks,
      ∃ ch, findChunk chunks cit.page_no cit.chunk_index = some ch ∧
        ch.page_no = cit.page_no ∧ ch.chunk_index = cit.chunk_index ∧
        cit.chunk_id = ch.id ∧ cit.text = ch.text.take 200 := by
  have hmain : (extract_citations t chunks).map
      (fun cit => (cit.page_no, cit.chunk_index)) =
        (dedupFirst (scanMarkers matchBody1 t ++ scanMarkers matchBody2 t)).filter
          (fun pc => (findChunk chunks pc.1 pc.2).isSome) := by
    have h := citeLoop_map_pairs chunks
      (scanMarkers matchBody1 t ++ scanMarkers matchBody2 t) []
    simpa [extract_citations] using h
  refine ⟨hmain, ?_, ?_⟩
  · rw [hmain]
    exact (dedupFirst_nodup _).filter _
  · intro cit hcit
    exact citeLoop_mem chunks _ [] cit hcit

/-! ### Summary-parse fallback chain (C5) -/

/-- C5 (counterexample): a response whose `SUMMARY` delimiter pair is
present but whose `KEY_TERMS` pair is absent (and which is not valid
JSON, so `json.loads` raises a decode error) refutes the claimed
chain: the claim requires both pairs for direct extraction and so
predicts the entire raw response as summary, but the code extracts
the summary from the `SUMMARY` pair alone. -/
theorem summary_chain_counterexample :
    generate_summary_and_terms (.ok summaryCexResponse) cexJsonParse =
      ("Short explanation.".data, []) ∧
    parseClaimC5 cexJsonParse summaryCexResponse = (summaryCexResponse, []) ∧
    generate_summary_and_terms (.ok summaryCexResponse) cexJsonParse ≠
      parseClaimC5 cexJsonParse summaryCexResponse := by
  exact ⟨by decide, by decide, by decide⟩

/-- C5 (amended): the two delimiter pairs are handled independently.
The summary comes from the `SUMMARY` pair when present, else from the
JSON fields of the (fence-stripped) response, else — on a JSON decode
error — the raw response; a decoded non-object escapes to the outer
handler, which yields empty summary and key terms. Whatever path was
taken, a still-empty key-term list is filled from the `KEY_TERMS`
pair when that pair is present (one term per line). The parser never
raises to its caller: it is a total function, and both a stream
failure and a JSON non-decode error yield `("", [])`. -/
theorem summary_parse_chain (jsonParse : List Char → JsonOutcome) :
    (∀ full, generate_summary_and_terms (.ok full) jsonParse =
      parseAmendedC5 jsonParse full) ∧
    ∀ e, generate_summary_and_terms (.error e) jsonParse = ([], []) := by
  constructor
  · intro full
    by_cases h1 : pyContains full sumStartMark ∧ pyContains full sumEndMark
    · simp [generate_summary_and_terms, parseSummaryCore, parseAmendedC5,
        keyTermsSupplement, h1]
    · cases hj : jsonParse (jsonCandidate full) with
      | decodeError =>
        simp [generate_summary_and_terms, parseSummaryCore, parseAmendedC5,
          keyTermsSupplement, h1, hj]
      | otherError =>
        simp [generate_summary_and_terms, parseSummaryCore, parseAmendedC5,
          keyTermsSupplement, h1, hj]
      | fields s ts =>
        simp [generate_summary_and_terms, parseSummaryCore, parseAmendedC5,
          keyTermsSupplement, h1, hj]
  · intro e
    rfl

end MindMap
